import Mathlib

/-!
Verification development for the Talkers Cave dialogue-rehearsal component
(src/components/TalkersCaveGame.tsx).

The component is a React single-file game.  Its reactive state variables and
event handlers are embedded here as an explicit state machine: the pure string
helpers (`cleanWord`, the normalized-containment match, the JS `Set`
deduplication used by `preparePractice`) are translated directly; the
asynchronous external services (the mistake analyzer and the phonetic
decomposition call) are modelled as oracle functions passed in as parameters,
with `Option` capturing failure of the underlying network call or of result
validation; the event handlers of the dialogue phase and of the practice phase
become transition functions on explicit state records, and event races are
modelled as arbitrary interleavings of an event trace processed one event at a
time (the source is single-threaded JavaScript, so handlers never overlap).
-/

namespace TalkersCave

/-- Phase of the session, named after the `Step` union type of the source:
SCENE, CHARACTER, LOADING_SCRIPT, GAME, PRACTICE_PREP, PRACTICE, COMPLETE. -/
inductive Step where
  | SCENE
  | CHARACTER
  | LOADING_SCRIPT
  | GAME
  | PRACTICE_PREP
  | PRACTICE
  | COMPLETE
deriving DecidableEq, Repr

/-- Per-practice-word status, after the source union
IDLE | LISTENING | SUCCESS | TRY_AGAIN. -/
inductive PracticeStatus where
  | IDLE
  | LISTENING
  | SUCCESS
  | TRY_AGAIN
deriving DecidableEq, Repr

/-- One scripted line: `{ character: string; line: string }`. -/
structure ScriptLine where
  character : String
  line : String
deriving DecidableEq, Repr

/-- One detected mistake: `{ said: string; expected: string }`. -/
structure Mistake where
  said : String
  expected : String
deriving DecidableEq, Repr

/-- One practice item: `{ word: string; phonemes: string[] }`. -/
structure PracticeWord where
  word : String
  phonemes : List String
deriving DecidableEq, Repr

/-- JS `String.prototype.trim`: drop leading and trailing whitespace.
Implemented over the character list so that the kernel can evaluate it. -/
def jsTrim (s : String) : String :=
  String.mk (((s.data.dropWhile Char.isWhitespace).reverse.dropWhile
    Char.isWhitespace).reverse)

/-- ASCII lowering of one character, the fragment of JS
`String.prototype.toLowerCase` relevant to this component. -/
def jsCharToLower (c : Char) : Char :=
  if 65 ≤ c.toNat ∧ c.toNat ≤ 90 then Char.ofNat (c.toNat + 32) else c

/-- JS `String.prototype.toLowerCase`, restricted to ASCII letters. -/
def jsToLower (s : String) : String :=
  String.mk (s.data.map jsCharToLower)

/-- JS `s.split(' ')`: split on every single space character, keeping empty
pieces, as `"Can I help you".split(' ')` does. -/
def jsSplitOnSpaceAux : List Char → List Char → List String
  | [], acc => [String.mk acc.reverse]
  | c :: rest, acc =>
    if c == ' ' then String.mk acc.reverse :: jsSplitOnSpaceAux rest []
    else jsSplitOnSpaceAux rest (c :: acc)

/-- JS `s.split(' ')` over a whole string. -/
def jsSplitOnSpace (s : String) : List String :=
  jsSplitOnSpaceAux s.data []

/-- Source line 74:
`const cleanWord = (word) => word.trim().toLowerCase().replace(/[.,?!]/g, '')`.
The global regex replace removes every occurrence of the four characters,
which is a character filter. -/
def cleanWord (word : String) : String :=
  String.mk ((jsToLower (jsTrim word)).data.filter
    (fun c => !(c == '.' || c == ',' || c == '?' || c == '!')))

/-- Helper for the JS `String.prototype.includes` test: `startsWith big small`
is true when `small` is a leading segment of `big`. -/
def startsWith : List Char → List Char → Bool
  | _, [] => true
  | [], _ :: _ => false
  | a :: as, b :: bs => (a == b) && startsWith as bs

/-- Helper for the JS `String.prototype.includes` test: `containsSeq big small`
is true when `small` occurs contiguously inside `big`. -/
def containsSeq : List Char → List Char → Bool
  | [], small => small.isEmpty
  | c :: rest, small => startsWith (c :: rest) small || containsSeq rest small

/-- JS `s.includes(sub)`: `sub` occurs as a contiguous substring of `s`. -/
def strIncludes (s sub : String) : Bool :=
  containsSeq s.data sub.data

/-- Accumulator form of the JS `new Set(...)` insertion-order deduplication:
elements already seen are dropped, first occurrences are kept in order. -/
def jsSetDedupAux (seen : List String) : List String → List String
  | [] => []
  | x :: xs =>
    if x ∈ seen then jsSetDedupAux seen xs
    else x :: jsSetDedupAux (x :: seen) xs

/-- JS `[...new Set(l)]`: first-occurrence-order deduplication of `l`. -/
def jsSetDedup (l : List String) : List String :=
  jsSetDedupAux [] l

/-- Source lines 76-108, `getPhoneticBreakdown`.  The network call, JSON
extraction and the array-of-strings validation are modelled by the oracle
`svc`: `some syllables` when the call succeeds and validates, `none` when the
call throws or the validation fails, in which case the source returns the
one-element fallback `[word]`. -/
def getPhoneticBreakdown (svc : String → Option (List String)) (word : String) :
    List String :=
  match svc word with
  | some result => result
  | none => [word]

/-- Source lines 111-168, `analyzeReadingWithAI spokenText targetText`.
When the trimmed spoken text is empty the service is not called and every
space-delimited word of the target becomes an omission mistake
`{said: "", expected: word}`.  Otherwise the network call and JSON validation
are modelled by the oracle `svc` (`none` = the call threw, yielding the
catch-branch fallback `[]`).  The returned Bool records whether the external
service was invoked. -/
def analyzeReadingWithAI (svc : String → String → Option (List Mistake))
    (spokenText targetText : String) : List Mistake × Bool :=
  if jsTrim spokenText = "" then
    ((jsSplitOnSpace targetText).map (fun word => { said := "", expected := word }), false)
  else
    match svc spokenText targetText with
    | some ms => (ms, true)
    | none => ([], true)

/-! ## Dialogue phase state machine -/

/-- Reactive state of the dialogue (GAME) phase.  `pendingTimer` holds the
transcript captured in the closure of the armed 2500ms silence timer
(`speechTimeout`), `hasProcessedTurn` is the per-turn processed guard ref. -/
structure GameState where
  step : Step
  script : List ScriptLine
  userCharacter : String
  currentTurn : Nat
  mistakes : List Mistake
  hasProcessedTurn : Bool
  isRecognitionActive : Bool
  isAiSpeaking : Bool
  recognitionError : Option String
  matchedWordCount : Nat
  pendingTimer : Option String
deriving DecidableEq, Repr

/-- The line of the script at the current turn (`script[currentTurn].line`). -/
def targetLineOf (s : GameState) : String :=
  (s.script.getD s.currentTurn { character := "", line := "" }).line

/-- Whether the current line belongs to the learner:
`script[currentTurn].character === selectedCharacter`. -/
def isUserTurn (s : GameState) : Bool :=
  (s.script.getD s.currentTurn { character := "", line := "" }).character
    == s.userCharacter

/-- Source lines 278-296, `processUserTurn`.  The analyzer is abstracted as the
total function `analyze transcript targetLine` (instantiate with
`fun sp tg => (analyzeReadingWithAI svc sp tg).1` for the concrete service).
Returns the updated state and whether the turn was actually submitted to the
analyzer (false when the per-turn guard blocked it). -/
def processUserTurn (analyze : String → String → List Mistake)
    (transcript : String) (s : GameState) : GameState × Bool :=
  if s.hasProcessedTurn then (s, false)
  else
    let currentMistakes := analyze transcript (targetLineOf s)
    let allMistakes := s.mistakes ++ currentMistakes
    if s.currentTurn < s.script.length - 1 then
      ({ s with hasProcessedTurn := true, mistakes := allMistakes,
                currentTurn := s.currentTurn + 1 }, true)
    else
      ({ s with hasProcessedTurn := true, mistakes := allMistakes,
                step := if allMistakes.length > 0 then Step.PRACTICE_PREP
                        else Step.COMPLETE }, true)

/-- Source lines 303-314, the dialogue `handleResult` listener.  If the
per-turn guard is set the event is ignored entirely (the guard check precedes
even the `clearTimeout`); otherwise the live matched-word count is recomputed
from the event transcript and the 2500ms silence timer is re-armed with the
transcript frozen in its closure. -/
def handleDialogueResult (transcript : String) (s : GameState) : GameState :=
  if s.hasProcessedTurn then s
  else
    { s with
      matchedWordCount :=
        (((jsSplitOnSpace transcript).map cleanWord).filter (fun w => w != "")).length,
      pendingTimer := some transcript }

/-- Firing of the 2500ms silence timer (source lines 311-313): the timer is
consumed; when the frozen transcript is non-blank after trimming,
`processUserTurn` is invoked on the trimmed transcript. -/
def fireTimer (analyze : String → String → List Mistake) (s : GameState) :
    GameState × Bool :=
  match s.pendingTimer with
  | none => (s, false)
  | some t =>
    let s0 := { s with pendingTimer := none }
    if jsTrim t != "" then processUserTurn analyze (jsTrim t) s0 else (s0, false)

/-- Source lines 315-322, the dialogue `handleError` listener: the pending
silence timer is cleared; `aborted` and `no-speech` only deactivate
recognition; `not-allowed` and `service-not-allowed` set the persistent
denied-access error; every other kind sets a generic persistent mic error. -/
def handleDialogueError (kind : String) (s : GameState) : GameState :=
  let s1 := { s with pendingTimer := none }
  if kind = "aborted" ∨ kind = "no-speech" then
    { s1 with isRecognitionActive := false }
  else if kind = "not-allowed" ∨ kind = "service-not-allowed" then
    { s1 with recognitionError := some "Microphone access denied.",
              isRecognitionActive := false }
  else
    { s1 with recognitionError := some ("Mic error: \"" ++ kind ++ "\"."),
              isRecognitionActive := false }

/-- Source lines 423-433, `startRecognition` (recognizer assumed present and
starting without throwing): a no-op while recognition is already active;
otherwise the per-turn guard and the live word count are reset, the error is
cleared and capture becomes active.  The Bool records whether capture
started. -/
def startRecognition (s : GameState) : GameState × Bool :=
  if s.isRecognitionActive then (s, false)
  else
    ({ s with hasProcessedTurn := false, matchedWordCount := 0,
              recognitionError := none, isRecognitionActive := true }, true)

/-- Source lines 435-444, the guard of the automatic capture-start effect: the
effect returns without starting the mic unless the phase is GAME, the script
is loaded, the turn index is in range, no recognition error is set, the AI is
not speaking, and the current line is the learner's. -/
def dialogueAutoStart (s : GameState) : GameState × Bool :=
  if s.step = Step.GAME ∧ s.script ≠ [] ∧ s.currentTurn < s.script.length ∧
     s.recognitionError = none ∧ s.isAiSpeaking = false ∧ isUserTurn s = true then
    startRecognition s
  else (s, false)

/-- Source lines 447-450, `handleAiTurnEnd`: after speaking an AI line, either
advance the turn pointer or close out the dialogue phase based on the
accumulated mistakes. -/
def handleAiTurnEnd (s : GameState) : GameState :=
  if s.currentTurn < s.script.length - 1 then
    { s with currentTurn := s.currentTurn + 1 }
  else
    { s with step := if s.mistakes.length > 0 then Step.PRACTICE_PREP
                     else Step.COMPLETE }

/-- Events that can reach the dialogue-phase state machine: a capture result
carrying the transcript accumulated so far, the silence-timer firing, a
capture error carrying the error kind, the capture end event, the automatic
capture-start effect running, and completion of a synthesized line. -/
inductive DEvent where
  | captureResult (transcript : String)
  | timerFire
  | captureError (kind : String)
  | captureEnd
  | startCapture
  | aiTurnEnd
deriving DecidableEq, Repr

/-- One event step of the dialogue machine.  The Bool is true exactly when the
event caused a submission of the turn to the mistake analyzer. -/
def dialogueStep (analyze : String → String → List Mistake) (e : DEvent)
    (s : GameState) : GameState × Bool :=
  match e with
  | DEvent.captureResult t => (handleDialogueResult t s, false)
  | DEvent.timerFire => fireTimer analyze s
  | DEvent.captureError k => (handleDialogueError k s, false)
  | DEvent.captureEnd => ({ s with isRecognitionActive := false }, false)
  | DEvent.startCapture => ((dialogueAutoStart s).1, false)
  | DEvent.aiTurnEnd => (handleAiTurnEnd s, false)

/-- Run a trace of dialogue events, counting analyzer submissions. -/
def runDialogue (analyze : String → String → List Mistake) :
    List DEvent → GameState → GameState × Nat
  | [], s => (s, 0)
  | e :: es, s =>
    let p := dialogueStep analyze e s
    let q := runDialogue analyze es p.1
    (q.1, (if p.2 then 1 else 0) + q.2)

/-! ## Practice phase state machine -/

/-- Reactive state of the practice phase. -/
structure PracticeState where
  step : Step
  practiceWords : List PracticeWord
  idx : Nat
  status : PracticeStatus
  transcript : String
  recognitionError : Option String
deriving DecidableEq, Repr

/-- Source lines 354-367, the `preparePractice` effect body: the non-empty
`expected` fields of the accumulated mistakes are deduplicated with JS `Set`
semantics (raw string equality, first-occurrence order); if that list is empty
`onComplete` fires at once and nothing else changes; otherwise each word gets
its phonetic breakdown (oracle `φ`, one value per word), words whose phoneme
list is empty are dropped, the cursor and status are reset and the phase
becomes PRACTICE.  The Bool records whether `onComplete` was signalled. -/
def preparePractice (φ : String → List String) (mistakes : List Mistake)
    (s : PracticeState) : PracticeState × Bool :=
  let wordsToPractice := jsSetDedup ((mistakes.map (fun m => m.expected)).filter
    (fun w => w != ""))
  if wordsToPractice.length = 0 then (s, true)
  else
    let phoneticData := wordsToPractice.map
      (fun w => { word := w, phonemes := φ w : PracticeWord })
    ({ s with
        practiceWords := phoneticData.filter (fun p => !p.phonemes.isEmpty),
        idx := 0, status := PracticeStatus.IDLE, transcript := "",
        step := Step.PRACTICE }, false)

/-- Source lines 199-221, the practice `result` handler: the transcript is
recorded; when the practice list is non-empty and the cursor is in range, the
normalized transcript is tested for containment of the normalized target word
and the status becomes SUCCESS or TRY_AGAIN accordingly. -/
def practiceResultHandler (transcript : String) (s : PracticeState) :
    PracticeState :=
  let s1 := { s with transcript := transcript }
  if s.practiceWords.length > 0 ∧ s.idx < s.practiceWords.length then
    let targetWord := (s.practiceWords.getD s.idx { word := "", phonemes := [] }).word
    if strIncludes (cleanWord transcript) (cleanWord targetWord) then
      { s1 with status := PracticeStatus.SUCCESS }
    else
      { s1 with status := PracticeStatus.TRY_AGAIN }
  else s1

/-- Source lines 207-215, the 1500ms SUCCESS display timeout: advance the
cursor and reset for the next word, or signal overall completion when the
current word was the last.  The Bool records the completion signal. -/
def practiceSuccessTimeout (s : PracticeState) : PracticeState × Bool :=
  if s.idx < s.practiceWords.length - 1 then
    ({ s with idx := s.idx + 1, status := PracticeStatus.IDLE, transcript := "" },
     false)
  else (s, true)

/-- Source lines 369-384, `startPracticeRecognition` (recognizer assumed
present and starting without throwing): the trigger is rejected with no state
change whenever the status is not IDLE; otherwise the status becomes LISTENING
and the transcript is cleared.  The Bool records whether capture started. -/
def startPracticeRecognition (s : PracticeState) : PracticeState × Bool :=
  if s.status ≠ PracticeStatus.IDLE then (s, false)
  else
    ({ s with status := PracticeStatus.LISTENING, transcript := "" }, true)

/-- Source lines 234-239, the practice `error` handler: non-benign kinds set a
persistent mic error message; the status always reverts to IDLE. -/
def practiceHandleError (kind : String) (s : PracticeState) : PracticeState :=
  let s1 :=
    if kind ≠ "no-speech" ∧ kind ≠ "aborted" then
      { s with recognitionError := some ("Mic error: \"" ++ kind ++ "\".") }
    else s
  { s1 with status := PracticeStatus.IDLE }

/-- Source lines 240-242, the practice `end` handler: only a LISTENING status
reverts to IDLE; any other status is left unchanged. -/
def practiceHandleEnd (s : PracticeState) : PracticeState :=
  if s.status = PracticeStatus.LISTENING then
    { s with status := PracticeStatus.IDLE }
  else s

/-! ## Helper lemmas -/

theorem startsWith_iff (small : List Char) : ∀ big : List Char,
    startsWith big small = true ↔ ∃ r, big = small ++ r := by
  induction small with
  | nil => intro big; simp [startsWith]
  | cons b bs ih =>
    intro big
    cases big with
    | nil => simp [startsWith]
    | cons a as =>
      simp [startsWith, ih, Bool.and_eq_true, beq_iff_eq]

theorem containsSeq_iff (small : List Char) : ∀ big : List Char,
    containsSeq big small = true ↔ ∃ l r, big = l ++ small ++ r := by
  intro big
  induction big with
  | nil =>
    constructor
    · intro hs
      have hsm : small = [] := by simpa [containsSeq] using hs
      exact ⟨[], [], by simp [hsm]⟩
    · rintro ⟨l, r, h⟩
      have h1 := List.append_eq_nil.mp h.symm
      have h2 := List.append_eq_nil.mp h1.1
      simp [containsSeq, h2.2]
  | cons c rest ih =>
    simp only [containsSeq, Bool.or_eq_true, startsWith_iff, ih]
    constructor
    · rintro (⟨r, h⟩ | ⟨l, r, h⟩)
      · exact ⟨[], r, by simpa using h⟩
      · exact ⟨c :: l, r, by simp [h]⟩
    · rintro ⟨l, r, h⟩
      cases l with
      | nil => exact Or.inl ⟨r, by simpa using h⟩
      | cons x xs =>
        rcases List.cons_eq_cons.mp (by simpa using h) with ⟨rfl, h2⟩
        exact Or.inr ⟨xs, r, by simpa using h2⟩

/-- strIncludes is exactly contiguous-substring occurrence. -/
theorem strIncludes_iff (s sub : String) :
    strIncludes s sub = true ↔ ∃ l r, s.data = l ++ sub.data ++ r := by
  simpa [strIncludes] using containsSeq_iff sub.data s.data

theorem mem_jsSetDedupAux (a : String) (l : List String) : ∀ seen : List String,
    a ∈ jsSetDedupAux seen l ↔ a ∈ l ∧ a ∉ seen := by
  induction l with
  | nil => intro seen; simp [jsSetDedupAux]
  | cons x xs ih =>
    intro seen
    by_cases hx : x ∈ seen
    · simp only [jsSetDedupAux, if_pos hx, ih, List.mem_cons]
      constructor
      · rintro ⟨h1, h2⟩; exact ⟨Or.inr h1, h2⟩
      · rintro ⟨rfl | h1, h2⟩
        · exact absurd hx h2
        · exact ⟨h1, h2⟩
    · simp only [jsSetDedupAux, if_neg hx, List.mem_cons, ih]
      constructor
      · rintro (rfl | ⟨h1, h2⟩)
        · exact ⟨Or.inl rfl, hx⟩
        · exact ⟨Or.inr h1, fun hs => h2 (Or.inr hs)⟩
      · rintro ⟨rfl | h1, h2⟩
        · exact Or.inl rfl
        · by_cases hax : a = x
          · exact Or.inl hax
          · exact Or.inr ⟨h1, fun hc => hc.elim hax h2⟩

theorem nodup_jsSetDedupAux (l : List String) : ∀ seen : List String,
    (jsSetDedupAux seen l).Nodup := by
  induction l with
  | nil => intro seen; simp [jsSetDedupAux]
  | cons x xs ih =>
    intro seen
    by_cases hx : x ∈ seen
    · simpa only [jsSetDedupAux, if_pos hx] using ih seen
    · simp only [jsSetDedupAux, if_neg hx]
      refine List.nodup_cons.mpr ⟨fun hmem => ?_, ih (x :: seen)⟩
      exact ((mem_jsSetDedupAux x xs (x :: seen)).mp hmem).2 (List.mem_cons_self x seen)

theorem jsSetDedupAux_sublist (l : List String) : ∀ seen : List String,
    (jsSetDedupAux seen l).Sublist l := by
  induction l with
  | nil => intro seen; simp [jsSetDedupAux]
  | cons x xs ih =>
    intro seen
    by_cases hx : x ∈ seen
    · simp only [jsSetDedupAux, if_pos hx]
      exact (ih seen).trans (List.sublist_cons_self x xs)
    · simp only [jsSetDedupAux, if_neg hx]
      exact (ih (x :: seen)).cons₂ x

theorem mem_jsSetDedup (a : String) (l : List String) :
    a ∈ jsSetDedup l ↔ a ∈ l := by
  simp [jsSetDedup, mem_jsSetDedupAux]

theorem nodup_jsSetDedup (l : List String) : (jsSetDedup l).Nodup :=
  nodup_jsSetDedupAux l []

theorem jsSetDedup_sublist (l : List String) : (jsSetDedup l).Sublist l :=
  jsSetDedupAux_sublist l []

theorem jsSetDedup_eq_nil_iff (l : List String) : jsSetDedup l = [] ↔ l = [] := by
  cases l with
  | nil => simp [jsSetDedup, jsSetDedupAux]
  | cons x xs => simp [jsSetDedup, jsSetDedupAux]

/-- With the per-turn guard set, `processUserTurn` is a blocked no-op. -/
theorem processUserTurn_blocked (analyze : String → String → List Mistake)
    (t : String) (s : GameState) (hg : s.hasProcessedTurn = true) :
    processUserTurn analyze t s = (s, false) := by
  simp [processUserTurn, hg]

/-- Any submitting call of `processUserTurn` leaves the guard set. -/
theorem processUserTurn_submit_guard (analyze : String → String → List Mistake)
    (t : String) (s : GameState) :
    (processUserTurn analyze t s).2 = true →
    (processUserTurn analyze t s).1.hasProcessedTurn = true := by
  by_cases hg : s.hasProcessedTurn = true
  · simp [processUserTurn_blocked analyze t s hg]
  · simp only [processUserTurn, if_neg hg]
    split <;> intro <;> rfl

/-- With the guard set, every dialogue event other than a capture start keeps
the guard set and submits nothing to the analyzer. -/
theorem dialogueStep_guard_preserved (analyze : String → String → List Mistake)
    (e : DEvent) (s : GameState) (hg : s.hasProcessedTurn = true)
    (he : e ≠ DEvent.startCapture) :
    (dialogueStep analyze e s).1.hasProcessedTurn = true ∧
      (dialogueStep analyze e s).2 = false := by
  cases e with
  | captureResult t => simp [dialogueStep, handleDialogueResult, hg]
  | timerFire =>
    simp only [dialogueStep, fireTimer]
    cases hp : s.pendingTimer with
    | none => simp [hg]
    | some t =>
      by_cases ht : jsTrim t = "" <;> simp [ht, hg, processUserTurn]
  | captureError k =>
    simp only [dialogueStep, handleDialogueError]
    split_ifs <;> simp [hg]
  | captureEnd => simp [dialogueStep, hg]
  | startCapture => exact absurd rfl he
  | aiTurnEnd =>
    simp only [dialogueStep, handleAiTurnEnd]
    split_ifs <;> simp [hg]

/-- Any dialogue event that submits to the analyzer leaves the guard set. -/
theorem dialogueStep_submit_guard (analyze : String → String → List Mistake)
    (e : DEvent) (s : GameState) (h : (dialogueStep analyze e s).2 = true) :
    (dialogueStep analyze e s).1.hasProcessedTurn = true := by
  cases e with
  | captureResult t => simp [dialogueStep] at h
  | timerFire =>
    rcases hp : s.pendingTimer with _ | t
    · simp [dialogueStep, fireTimer, hp] at h
    · by_cases ht : jsTrim t = ""
      · simp [dialogueStep, fireTimer, hp, ht] at h
      · simp [dialogueStep, fireTimer, hp, ht] at h ⊢
        exact processUserTurn_submit_guard analyze _ _ h
  | captureError k => simp [dialogueStep] at h
  | captureEnd => simp [dialogueStep] at h
  | startCapture => simp [dialogueStep] at h
  | aiTurnEnd => simp [dialogueStep] at h

/-- From a state with the guard set, a trace free of capture-start events
never submits to the analyzer. -/
theorem runDialogue_no_submit (analyze : String → String → List Mistake)
    (evs : List DEvent) : ∀ s : GameState, s.hasProcessedTurn = true →
    (∀ e ∈ evs, e ≠ DEvent.startCapture) →
    (runDialogue analyze evs s).2 = 0 := by
  induction evs with
  | nil => intro s _ _; simp [runDialogue]
  | cons e es ih =>
    intro s hg he
    have h1 := dialogueStep_guard_preserved analyze e s hg
      (he e (List.mem_cons_self e es))
    simp only [runDialogue]
    rw [h1.2]
    simpa using ih (dialogueStep analyze e s).1 h1.1
      (fun x hx => he x (List.mem_cons_of_mem e hx))

/-- Over a trace free of capture-start events, the analyzer is invoked at most
once regardless of the starting state. -/
theorem runDialogue_le_one (analyze : String → String → List Mistake)
    (evs : List DEvent) : ∀ s : GameState,
    (∀ e ∈ evs, e ≠ DEvent.startCapture) →
    (runDialogue analyze evs s).2 ≤ 1 := by
  induction evs with
  | nil => intro s _; simp [runDialogue]
  | cons e es ih =>
    intro s he
    simp only [runDialogue]
    by_cases hb : (dialogueStep analyze e s).2 = true
    · have hg := dialogueStep_submit_guard analyze e s hb
      have h0 := runDialogue_no_submit analyze es (dialogueStep analyze e s).1 hg
        (fun x hx => he x (List.mem_cons_of_mem e hx))
      simp [hb, h0]
    · have h1 := ih (dialogueStep analyze e s).1
        (fun x hx => he x (List.mem_cons_of_mem e hx))
      simp only [Bool.not_eq_true] at hb
      simpa [hb] using h1

/-- processUserTurn never touches the persistent recognition error. -/
theorem processUserTurn_error_eq (analyze : String → String → List Mistake)
    (t : String) (s : GameState) :
    (processUserTurn analyze t s).1.recognitionError = s.recognitionError := by
  simp only [processUserTurn]
  split_ifs <;> rfl

/-- While a recognition error is set, the automatic capture-start effect is a
no-op: no capture is started. -/
theorem dialogueAutoStart_error_blocked (s : GameState)
    (h : s.recognitionError.isSome = true) : dialogueAutoStart s = (s, false) := by
  have hne : s.recognitionError ≠ none := by
    intro hn; rw [hn] at h; simp at h
  simp only [dialogueAutoStart]
  rw [if_neg]
  rintro ⟨_, _, _, h4, _⟩
  exact hne h4

/-! ## Claim theorems -/

/-- C1: a dialogue turn is submitted to the external mistake analyzer at most
once even if the 2500ms silence timer and capture end/result events race: over
any event trace containing no capture-start event the analyzer is invoked at
most once; a capture result event arriving while the per-turn processed guard
is set is ignored with no state change; `processUserTurn` is a blocked no-op
while the guard is set; every submitting `processUserTurn` call leaves the
guard set (the guard is set as the asynchronous analysis begins); and no
dialogue event other than the capture-start event that opens the next turn
ever clears a set guard. -/
theorem claim1_turn_submitted_at_most_once :
    (∀ (analyze : String → String → List Mistake) (evs : List DEvent)
        (s : GameState), (∀ e ∈ evs, e ≠ DEvent.startCapture) →
        (runDialogue analyze evs s).2 ≤ 1)
    ∧ (∀ (t : String) (s : GameState), s.hasProcessedTurn = true →
        handleDialogueResult t s = s)
    ∧ (∀ (analyze : String → String → List Mistake) (t : String)
        (s : GameState), s.hasProcessedTurn = true →
        processUserTurn analyze t s = (s, false))
    ∧ (∀ (analyze : String → String → List Mistake) (t : String)
        (s : GameState), (processUserTurn analyze t s).2 = true →
        (processUserTurn analyze t s).1.hasProcessedTurn = true)
    ∧ (∀ (analyze : String → String → List Mistake) (e : DEvent)
        (s : GameState), s.hasProcessedTurn = true →
        e ≠ DEvent.startCapture →
        (dialogueStep analyze e s).1.hasProcessedTurn = true) := by
  refine ⟨runDialogue_le_one, ?_, processUserTurn_blocked,
    processUserTurn_submit_guard, ?_⟩
  · intro t s hg
    simp [handleDialogueResult, hg]
  · intro analyze e s hg he
    exact (dialogueStep_guard_preserved analyze e s hg he).1

/-- Concrete state for the C1 witness: a two-line script at the user's turn,
guard clear, capture active. -/
def gs1 : GameState :=
  { step := Step.GAME,
    script := [{ character := "Shopkeeper", line := "Can I help you" },
               { character := "Customer", line := "Yes please" }],
    userCharacter := "Customer", currentTurn := 1, mistakes := [],
    hasProcessedTurn := false, isRecognitionActive := true,
    isAiSpeaking := false, recognitionError := none,
    matchedWordCount := 0, pendingTimer := none }

/-- C1 witness: on a concrete race trace (a result event, then the silence
timer firing twice, then a capture end) the analyzer is invoked at most
once. -/
theorem claim1_witness :
    (runDialogue (fun _ _ => [])
      [DEvent.captureResult "yes please", DEvent.timerFire, DEvent.timerFire,
       DEvent.captureEnd] gs1).2 ≤ 1 :=
  claim1_turn_submitted_at_most_once.1 (fun _ _ => [])
    [DEvent.captureResult "yes please", DEvent.timerFire, DEvent.timerFire,
     DEvent.captureEnd] gs1 (by decide)

/-- C2: a practice attempt succeeds (status SUCCESS) exactly when the cleaned
transcript contains the cleaned target word as a contiguous substring, and
otherwise the status becomes TRY_AGAIN. -/
theorem claim2_success_iff_containment :
    ∀ (t : String) (s : PracticeState),
      s.practiceWords.length > 0 → s.idx < s.practiceWords.length →
      (((practiceResultHandler t s).status = PracticeStatus.SUCCESS ↔
          ∃ l r, (cleanWord t).data =
            l ++ (cleanWord (s.practiceWords.getD s.idx
              { word := "", phonemes := [] }).word).data ++ r)
        ∧ ((practiceResultHandler t s).status = PracticeStatus.TRY_AGAIN ↔
          ¬∃ l r, (cleanWord t).data =
            l ++ (cleanWord (s.practiceWords.getD s.idx
              { word := "", phonemes := [] }).word).data ++ r)) := by
  intro t s h1 h2
  by_cases hm : strIncludes (cleanWord t)
      (cleanWord (s.practiceWords.getD s.idx
        { word := "", phonemes := [] }).word) = true
  · have hst : (practiceResultHandler t s).status = PracticeStatus.SUCCESS := by
      have hm' : strIncludes (cleanWord t)
          (cleanWord (s.practiceWords[s.idx]).word) = true := by
        rwa [List.getD_eq_getElem] at hm
      simp [practiceResultHandler, h1, h2, hm']
    have hex := (strIncludes_iff _ _).mp hm
    rw [hst]
    exact ⟨iff_of_true rfl hex,
      iff_of_false (by simp) (fun hn => hn hex)⟩
  · have hst : (practiceResultHandler t s).status = PracticeStatus.TRY_AGAIN := by
      have hm' : ¬strIncludes (cleanWord t)
          (cleanWord (s.practiceWords[s.idx]).word) = true := by
        rwa [List.getD_eq_getElem] at hm
      simp [practiceResultHandler, h1, h2, hm']
    have hnex : ¬∃ l r, (cleanWord t).data =
        l ++ (cleanWord (s.practiceWords.getD s.idx
          { word := "", phonemes := [] }).word).data ++ r :=
      fun hex => hm ((strIncludes_iff _ _).mpr hex)
    rw [hst]
    exact ⟨iff_of_false (by simp) hnex, iff_of_true rfl hnex⟩

/-- Concrete state for the C2 witness: practising the word "two". -/
def ps2 : PracticeState :=
  { step := Step.PRACTICE,
    practiceWords := [{ word := "two", phonemes := ["tu"] }],
    idx := 0, status := PracticeStatus.LISTENING, transcript := "",
    recognitionError := none }

/-- C2 witness: the transcript with carrier words around the target succeeds,
and a different number word fails to TRY_AGAIN. -/
theorem claim2_witness :
    (practiceResultHandler "I think it\x27s two." ps2).status =
      PracticeStatus.SUCCESS
    ∧ (practiceResultHandler "three" ps2).status = PracticeStatus.TRY_AGAIN :=
  ⟨(claim2_success_iff_containment "I think it\x27s two." ps2 (by decide)
      (by decide)).1.mpr ((strIncludes_iff _ _).mp (by decide)),
   (claim2_success_iff_containment "three" ps2 (by decide)
      (by decide)).2.mpr
      (fun hex => absurd ((strIncludes_iff _ _).mpr hex) (by decide))⟩

/-- C5: with empty (or whitespace-only) spoken text the analyzer service is
not called and every space-delimited word of the target line becomes an
omission mistake with empty `said`; for "Can I help you" this yields exactly
four entries. -/
theorem claim5_empty_spoken_is_full_omission :
    (∀ (svc : String → String → Option (List Mistake)) (spoken target : String),
        jsTrim spoken = "" →
        analyzeReadingWithAI svc spoken target =
          ((jsSplitOnSpace target).map (fun w => { said := "", expected := w }),
            false))
    ∧ (∀ svc : String → String → Option (List Mistake),
        (analyzeReadingWithAI svc "" "Can I help you").1 =
          [{ said := "", expected := "Can" }, { said := "", expected := "I" },
           { said := "", expected := "help" },
           { said := "", expected := "you" }]) := by
  constructor
  · intro svc spoken target h
    simp [analyzeReadingWithAI, h]
  · intro svc
    rfl

/-- C5 witness: a whitespace-only transcript against "Can I help you" yields
the four omission mistakes without a service call. -/
theorem claim5_witness :
    analyzeReadingWithAI (fun _ _ => none) "   " "Can I help you" =
      ((jsSplitOnSpace "Can I help you").map
        (fun w => { said := "", expected := w }), false) :=
  claim5_empty_spoken_is_full_omission.1 (fun _ _ => none) "   "
    "Can I help you" (by decide)

/-- C9: a failure of the mistake-analyzer call yields the empty mistake list
for that turn, and a failure of the phonetic-decomposition call for a word
yields the one-element fallback containing the word itself; both functions
are total, so neither failure blocks the session. -/
theorem claim9_failures_degrade_gracefully :
    (∀ (svc : String → Option (List String)) (word : String),
        svc word = none → getPhoneticBreakdown svc word = [word])
    ∧ (∀ (svc : String → String → Option (List Mistake))
        (spoken target : String),
        jsTrim spoken ≠ "" → svc spoken target = none →
        analyzeReadingWithAI svc spoken target = ([], true)) := by
  constructor
  · intro svc word h
    simp [getPhoneticBreakdown, h]
  · intro svc spoken target h1 h2
    simp [analyzeReadingWithAI, h1, h2]

/-- C9 witness: both fallbacks at concrete inputs. -/
theorem claim9_witness :
    getPhoneticBreakdown (fun _ => none) "together" = ["together"]
    ∧ analyzeReadingWithAI (fun _ _ => none) "hello" "Can I help you" =
        ([], true) :=
  ⟨claim9_failures_degrade_gracefully.1 (fun _ => none) "together" rfl,
   claim9_failures_degrade_gracefully.2 (fun _ _ => none) "hello"
     "Can I help you" (by decide) rfl⟩

/-- C10: the practice match is plain substring containment on the cleaned
strings with no word-boundary check: whenever the cleaned target occurs
contiguously anywhere inside the cleaned transcript — including inside a
longer word — the attempt is judged SUCCESS. -/
theorem claim10_no_word_boundary :
    ∀ (t : String) (s : PracticeState),
      s.practiceWords.length > 0 → s.idx < s.practiceWords.length →
      (∃ l r, (cleanWord t).data =
        l ++ (cleanWord (s.practiceWords.getD s.idx
          { word := "", phonemes := [] }).word).data ++ r) →
      (practiceResultHandler t s).status = PracticeStatus.SUCCESS := by
  intro t s h1 h2 hex
  have hm : strIncludes (cleanWord t)
      (cleanWord (s.practiceWords.getD s.idx
        { word := "", phonemes := [] }).word) = true :=
    (strIncludes_iff _ _).mpr hex
  have hm' : strIncludes (cleanWord t)
      (cleanWord (s.practiceWords[s.idx]).word) = true := by
    rwa [List.getD_eq_getElem] at hm
  simp [practiceResultHandler, h1, h2, hm']

/-- Concrete state for the C10 witness: practising the word "two". -/
def ps10 : PracticeState :=
  { step := Step.PRACTICE,
    practiceWords := [{ word := "two", phonemes := ["tu"] }],
    idx := 0, status := PracticeStatus.LISTENING, transcript := "",
    recognitionError := none }

/-- C10 witness: the target "two" occurs inside the longer word "network", so
the attempt is judged SUCCESS despite no word boundary. -/
theorem claim10_witness :
    (practiceResultHandler "network" ps10).status = PracticeStatus.SUCCESS :=
  claim10_no_word_boundary "network" ps10 (by decide) (by decide)
    ((strIncludes_iff _ _).mp (by decide))

/-- Mistake list for C3: two raw `expected` strings that clean to the same
word "two". -/
def mistakes3 : List Mistake :=
  [{ said := "", expected := "Two." }, { said := "", expected := "two" }]

/-- Practice-prep state for C3. -/
def ps3 : PracticeState :=
  { step := Step.PRACTICE_PREP, practiceWords := [], idx := 0,
    status := PracticeStatus.IDLE, transcript := "",
    recognitionError := none }

/-- C3 counterexample: `preparePractice` deduplicates the raw `expected`
strings, not their cleaned forms, so "Two." and "two" both survive and the
cleaned word "two" appears twice in the practice-word sequence — refuting the
claim that each distinct cleaned word appears exactly once. -/
theorem claim3_counterexample :
    ((preparePractice (fun w => [w]) mistakes3 ps3).1.practiceWords.map
        (fun p => cleanWord p.word)) = ["two", "two"]
    ∧ ¬((preparePractice (fun w => [w]) mistakes3 ps3).1.practiceWords.map
        (fun p => cleanWord p.word)).Nodup := by
  decide

/-- C3 amended: when at least one non-empty `expected` value exists, the
practice-word sequence is the non-empty `expected` values deduplicated by raw
string equality — each distinct raw string appears exactly once, in
first-occurrence order (a sublist of the filtered expected values) — a word is
kept exactly when it occurs as a non-empty expected value and its phoneme
sequence is non-empty, and each kept word carries its phonetic breakdown.
Cleaning is not applied before deduplication. -/
theorem claim3_amended_dedup_is_raw :
    ∀ (φ : String → List String) (ms : List Mistake) (s : PracticeState),
      ((ms.map (fun m => m.expected)).filter (fun w => w != "")) ≠ [] →
      ((preparePractice φ ms s).1.practiceWords.map (fun p => p.word)).Nodup
      ∧ (∀ w, w ∈ (preparePractice φ ms s).1.practiceWords.map
            (fun p => p.word) ↔
          (w ∈ ms.map (fun m => m.expected) ∧ w ≠ "" ∧ φ w ≠ []))
      ∧ ((preparePractice φ ms s).1.practiceWords.map
            (fun p => p.word)).Sublist
          ((ms.map (fun m => m.expected)).filter (fun w => w != ""))
      ∧ (∀ p ∈ (preparePractice φ ms s).1.practiceWords,
          p.phonemes = φ p.word ∧ p.phonemes ≠ []) := by
  intro φ ms s hne
  have hd : jsSetDedup ((ms.map (fun m => m.expected)).filter
      (fun w => w != "")) ≠ [] := by
    rw [Ne, jsSetDedup_eq_nil_iff]
    exact hne
  have hlen : ¬(jsSetDedup ((ms.map (fun m => m.expected)).filter
      (fun w => w != ""))).length = 0 := by
    simpa [List.length_eq_zero] using hd
  have hout : (preparePractice φ ms s).1.practiceWords =
      ((jsSetDedup ((ms.map (fun m => m.expected)).filter
          (fun w => w != ""))).map
        (fun w => { word := w, phonemes := φ w : PracticeWord })).filter
        (fun p => !p.phonemes.isEmpty) := by
    simp [preparePractice, hlen]
  have hmapword : (preparePractice φ ms s).1.practiceWords.map
      (fun p => p.word) =
      (jsSetDedup ((ms.map (fun m => m.expected)).filter
        (fun w => w != ""))).filter (fun w => !(φ w).isEmpty) := by
    rw [hout]
    simp only [List.filter_map, List.map_map]
    exact List.map_id' _
  have hsub1 : ((preparePractice φ ms s).1.practiceWords.map
      (fun p => p.word)).Sublist
      (jsSetDedup ((ms.map (fun m => m.expected)).filter
        (fun w => w != ""))) := by
    rw [hmapword]
    exact List.filter_sublist _
  refine ⟨List.Nodup.sublist hsub1 (nodup_jsSetDedup _), ?_, ?_, ?_⟩
  · intro w
    rw [hmapword]
    simp only [List.mem_filter, mem_jsSetDedup, List.mem_filter,
      Bool.not_eq_true', List.isEmpty_eq_false, bne_iff_ne, Ne, and_assoc]
  · exact hsub1.trans (jsSetDedup_sublist _)
  · intro p hp
    rw [hout] at hp
    rcases List.mem_filter.mp hp with ⟨hp1, hp2⟩
    rcases List.mem_map.mp hp1 with ⟨a, _, rfl⟩
    refine ⟨rfl, ?_⟩
    simpa using hp2

/-- C3 witness: at the concrete mistake list of the counterexample, the
amended characterization applies and the raw practice words are duplicate
free. -/
theorem claim3_witness :
    ((preparePractice (fun w => [w]) mistakes3 ps3).1.practiceWords.map
      (fun p => p.word)).Nodup :=
  (claim3_amended_dedup_is_raw (fun w => [w]) mistakes3 ps3 (by decide)).1

/-- Practice state for C4: one practice word "together", status IDLE. -/
def ps4 : PracticeState :=
  { step := Step.PRACTICE,
    practiceWords := [{ word := "together", phonemes := ["tu", "geh", "dhuh"] }],
    idx := 0, status := PracticeStatus.IDLE, transcript := "",
    recognitionError := none }

/-- C4, the code evaluated at the failing input: the trigger starts listening;
the non-matching transcript "tugeda" sets TRY_AGAIN; the capture end event
leaves TRY_AGAIN in place (no auto-revert); and a new external trigger is then
rejected with no state change and no capture started — so, contrary to the
claim (and the on-screen "Try again!" invitation), a new trigger does NOT
suffice to retry the word. -/
theorem claim4_trigger_blocked_after_try_again :
    (practiceResultHandler "tugeda" (startPracticeRecognition ps4).1).status
        = PracticeStatus.TRY_AGAIN
    ∧ practiceHandleEnd
        (practiceResultHandler "tugeda" (startPracticeRecognition ps4).1) =
        practiceResultHandler "tugeda" (startPracticeRecognition ps4).1
    ∧ startPracticeRecognition
        (practiceResultHandler "tugeda" (startPracticeRecognition ps4).1) =
        (practiceResultHandler "tugeda" (startPracticeRecognition ps4).1,
          false) := by
  decide

/-- Game state for the C6 witness: a two-line script, at the final turn, no
accumulated mistakes, guard clear. -/
def gs6 : GameState :=
  { step := Step.GAME,
    script := [{ character := "Shopkeeper", line := "Hello" },
               { character := "Customer", line := "Hi" }],
    userCharacter := "Customer", currentTurn := 1, mistakes := [],
    hasProcessedTurn := false, isRecognitionActive := true,
    isAiSpeaking := false, recognitionError := none,
    matchedWordCount := 0, pendingTimer := none }

/-- C6: when the final script turn completes, the dialogue phase closes out to
PRACTICE_PREP when the accumulated mistake sequence (after folding in the
final analyzer result for a user turn) is non-empty and directly to COMPLETE
when it is empty, for user-spoken and synthesized final turns alike. -/
theorem claim6_dialogue_closeout :
    (∀ (analyze : String → String → List Mistake) (t : String) (s : GameState),
        s.hasProcessedTurn = false → s.script.length - 1 ≤ s.currentTurn →
        (processUserTurn analyze t s).1.step =
          (if (s.mistakes ++ analyze t (targetLineOf s)).length > 0
           then Step.PRACTICE_PREP else Step.COMPLETE)
        ∧ (processUserTurn analyze t s).1.mistakes =
            s.mistakes ++ analyze t (targetLineOf s))
    ∧ (∀ s : GameState, s.script.length - 1 ≤ s.currentTurn →
        handleAiTurnEnd s =
          { s with step := if s.mistakes.length > 0 then Step.PRACTICE_PREP
                           else Step.COMPLETE }) := by
  constructor
  · intro analyze t s hg hlast
    have hnot : ¬s.currentTurn < s.script.length - 1 := not_lt.mpr hlast
    simp [processUserTurn, hg, hnot]
  · intro s hlast
    have hnot : ¬s.currentTurn < s.script.length - 1 := not_lt.mpr hlast
    simp [handleAiTurnEnd, hnot]

/-- C6 witness: with all turns correct (analyzer returns no mistakes), the
final user turn transitions the phase directly to COMPLETE — practice never
runs. -/
theorem claim6_witness :
    (processUserTurn (fun _ _ => []) "Hi" gs6).1.step = Step.COMPLETE := by
  have h := (claim6_dialogue_closeout.1 (fun _ _ => []) "Hi" gs6 rfl
    (by decide)).1
  simpa [gs6] using h

/-- Mistake list for C7: a single missed word. -/
def mistakes7 : List Mistake := [{ said := "", expected := "xyz" }]

/-- Practice-prep state for C7. -/
def ps7 : PracticeState :=
  { step := Step.PRACTICE_PREP, practiceWords := [], idx := 0,
    status := PracticeStatus.IDLE, transcript := "",
    recognitionError := none }

/-- C7 counterexample: when the deduplicated word list is non-empty but every
phonetic breakdown comes back empty, the practice-word sequence resulting
from preparation is empty, yet the engine does NOT signal completion — it
enters the PRACTICE phase with an empty word list, refuting the claim that an
empty resulting sequence immediately signals overall completion. -/
theorem claim7_counterexample :
    (preparePractice (fun _ => []) mistakes7 ps7).1.practiceWords = []
    ∧ (preparePractice (fun _ => []) mistakes7 ps7).2 = false
    ∧ (preparePractice (fun _ => []) mistakes7 ps7).1.step = Step.PRACTICE := by
  decide

/-- C7 amended: the immediate-completion check happens before phonetic
decomposition: when the list of non-empty expected words is empty the engine
immediately signals overall completion with no other state change; when that
list is non-empty the engine enters the PRACTICE phase without signalling
completion, even if phoneme filtering later leaves the practice-word sequence
empty. -/
theorem claim7_amended_completion_check_before_phonemes :
    ∀ (φ : String → List String) (ms : List Mistake) (s : PracticeState),
      (((ms.map (fun m => m.expected)).filter (fun w => w != "") = [] →
        preparePractice φ ms s = (s, true))
      ∧ ((ms.map (fun m => m.expected)).filter (fun w => w != "") ≠ [] →
        (preparePractice φ ms s).2 = false
        ∧ (preparePractice φ ms s).1.step = Step.PRACTICE)) := by
  intro φ ms s
  constructor
  · intro h
    simp [preparePractice, h, jsSetDedup, jsSetDedupAux]
  · intro h
    have hlen : ¬(jsSetDedup ((ms.map (fun m => m.expected)).filter
        (fun w => w != ""))).length = 0 := by
      simp only [List.length_eq_zero, Ne, jsSetDedup_eq_nil_iff]
      exact h
    simp [preparePractice, hlen]

/-- C7 witness: with no mistakes at all, preparation immediately signals
completion and changes nothing. -/
theorem claim7_witness :
    preparePractice (fun w => [w]) [] ps7 = (ps7, true) :=
  (claim7_amended_completion_check_before_phonemes (fun w => [w]) [] ps7).1
    (by decide)

/-- When every guard condition of the automatic capture-start effect holds
and recognition is inactive, the effect starts capture, resetting the guard,
the live word count and the error. -/
theorem dialogueAutoStart_starts (s : GameState)
    (h1 : s.step = Step.GAME) (h2 : s.script ≠ [])
    (h3 : s.currentTurn < s.script.length)
    (h4 : s.recognitionError = none) (h5 : s.isAiSpeaking = false)
    (h6 : isUserTurn s = true) (h7 : s.isRecognitionActive = false) :
    dialogueAutoStart s =
      ({ s with hasProcessedTurn := false, matchedWordCount := 0,
                recognitionError := none, isRecognitionActive := true },
        true) := by
  simp only [dialogueAutoStart, startRecognition]
  rw [if_pos ⟨h1, h2, h3, h4, h5, h6⟩, if_neg (by rw [h7]; simp)]

/-- Game state for the C8 witness: user turn ready, no error set. -/
def gs8 : GameState :=
  { step := Step.GAME,
    script := [{ character := "Customer", line := "Hello" }],
    userCharacter := "Customer", currentTurn := 0, mistakes := [],
    hasProcessedTurn := false, isRecognitionActive := true,
    isAiSpeaking := false, recognitionError := none,
    matchedWordCount := 0, pendingTimer := none }

/-- C8: capture errors `aborted` and `no-speech` are benign — they stop
capture with no user-visible error and the same turn is eligible for an
automatic restart; every other error kind sets a persistent user-visible
error; while an error is set the automatic capture-start effect attempts no
capture, and no dialogue event clears a set error. -/
theorem claim8_capture_error_policy :
    (∀ (k : String) (s : GameState), k = "aborted" ∨ k = "no-speech" →
        handleDialogueError k s =
          { s with pendingTimer := none, isRecognitionActive := false })
    ∧ (∀ s : GameState, s.step = Step.GAME → s.script ≠ [] →
        s.currentTurn < s.script.length → s.recognitionError = none →
        s.isAiSpeaking = false → isUserTurn s = true →
        (dialogueAutoStart (handleDialogueError "no-speech" s)).2 = true
        ∧ (dialogueAutoStart (handleDialogueError "no-speech" s)).1.currentTurn
            = s.currentTurn)
    ∧ (∀ (k : String) (s : GameState), ¬(k = "aborted" ∨ k = "no-speech") →
        (handleDialogueError k s).recognitionError.isSome = true)
    ∧ (∀ s : GameState, s.recognitionError.isSome = true →
        dialogueAutoStart s = (s, false))
    ∧ (∀ (analyze : String → String → List Mistake) (e : DEvent)
        (s : GameState), s.recognitionError.isSome = true →
        (dialogueStep analyze e s).1.recognitionError.isSome = true) := by
  refine ⟨?_, ?_, ?_, dialogueAutoStart_error_blocked, ?_⟩
  · intro k s hk
    rcases hk with rfl | rfl <;> rfl
  · intro s h1 h2 h3 h4 h5 h6
    rw [dialogueAutoStart_starts (handleDialogueError "no-speech" s)
      h1 h2 h3 h4 h5 h6 rfl]
    exact ⟨rfl, rfl⟩
  · intro k s hk
    simp only [handleDialogueError]
    rw [if_neg hk]
    split_ifs <;> rfl
  · intro analyze e s h
    cases e with
    | captureResult t =>
      simp only [dialogueStep, handleDialogueResult]
      split_ifs <;> exact h
    | timerFire =>
      rcases hp : s.pendingTimer with _ | t
      · simpa [dialogueStep, fireTimer, hp] using h
      · by_cases ht : jsTrim t = ""
        · simpa [dialogueStep, fireTimer, hp, ht] using h
        · simp [dialogueStep, fireTimer, hp, ht, processUserTurn_error_eq, h]
    | captureError k =>
      simp only [dialogueStep, handleDialogueError]
      split_ifs <;> first | exact h | rfl
    | captureEnd => exact h
    | startCapture =>
      rw [dialogueStep, dialogueAutoStart_error_blocked s h]
      exact h
    | aiTurnEnd =>
      simp only [dialogueStep, handleAiTurnEnd]
      split_ifs <;> exact h

/-- C8 witness: after a benign no-speech error at a ready user turn, the
automatic capture-start effect restarts capture for the same turn. -/
theorem claim8_witness :
    (dialogueAutoStart (handleDialogueError "no-speech" gs8)).2 = true :=
  (claim8_capture_error_policy.2.1 gs8 rfl (by decide) (by decide) rfl rfl
    (by decide)).1

end TalkersCave
